import Mathlib

/-!
Shallow embedding of the `pathext` repository's extension-to-MIME registry and
extension classification logic (`pathext/core.py`, class `PathExt`).

Filesystem capabilities (readability, binary sniffing, regular-file tests) are
abstracted as boolean parameters; a path is represented by its final component
name (a `String`).  Python dicts are modelled as insertion-ordered association
lists, Python exceptions as `Except`.
-/

namespace Pathext

/-- Association-list lookup, modelling a Python dict read `d[k]` / `d.get(k)`. -/
def alookup {α : Type} : List (String × α) → String → Option α
  | [], _ => none
  | p :: rest, k => if p.1 = k then some p.2 else alookup rest k

/-- Python key-membership test `k in d`. -/
def containsKey {α : Type} (m : List (String × α)) (k : String) : Bool :=
  (alookup m k).isSome

/-- Python `str.split(sep)` for a one-character separator, on the char list. -/
def splitOnChar (c : Char) : List Char → List (List Char)
  | [] => [[]]
  | x :: xs =>
    match splitOnChar c xs with
    | [] => [[x]]
    | y :: ys => if x = c then [] :: y :: ys else (x :: y) :: ys

/-- Python `str.strip(c)`: drop every leading and trailing copy of `c`. -/
def stripChar (c : Char) (l : List Char) : List Char :=
  ((l.dropWhile (· = c)).reverse.dropWhile (· = c)).reverse

/-- `stripChar` lifted to `String`. -/
def stripCharS (c : Char) (s : String) : String := (stripChar c s.toList).asString

/-- pathlib `PurePath.suffixes` of a final component `name`: empty when the
name ends in a dot, otherwise a dot is prepended to every dot-separated
segment after the first of the name stripped of leading dots. -/
def suffixesOf (name : String) : List String :=
  let l := name.toList
  if l.getLast? = some '.' then []
  else ((splitOnChar '.' (l.dropWhile (fun a => a = '.'))).drop 1).map
    (fun cs => List.asString ('.' :: cs))

/-- Index of the last occurrence of `c`, modelling Python `str.rfind`. -/
def rfindIdx (c : Char) : List Char → Option Nat
  | [] => none
  | x :: xs =>
    match rfindIdx c xs with
    | some i => some (i + 1)
    | none => if x = c then some 0 else none

/-- pathlib `PurePath.suffix`: the part of the name from its last dot on,
when that dot is neither the first nor the last character; else empty. -/
def suffixOf (name : String) : String :=
  let l := name.toList
  match rfindIdx '.' l with
  | none => ""
  | some i => if 0 < i ∧ i < l.length - 1 then (l.drop i).asString else ""

/-- The two class-level registry tables `_ext2mime_map` and `_mime2ext_map`. -/
structure RegState where
  ext2mime : List (String × List String)
  mime2ext : List (String × List String)
deriving DecidableEq, Repr

/-- Both tables start out as empty dicts. -/
def initState : RegState := ⟨[], []⟩

/-- The `_ext2mime_map` update of one `_load` loop iteration: append `mm` to
the entry of `ext` only when not already present, else create the entry. -/
def insertExt2Mime (m : List (String × List String)) (ext mm : String) :
    List (String × List String) :=
  if containsKey m ext then
    m.map fun p => if p.1 = ext then (p.1, if mm ∈ p.2 then p.2 else p.2 ++ [mm]) else p
  else m ++ [(ext, [mm])]

/-- The `_mime2ext_map` update of one `_load` loop iteration: append `ext`
unconditionally when the key exists, else create the entry. -/
def insertMime2Ext (m : List (String × List String)) (mm ext : String) :
    List (String × List String) :=
  if containsKey m mm then
    m.map fun p => if p.1 = mm then (p.1, p.2 ++ [ext]) else p
  else m ++ [(mm, [ext])]

/-- One iteration of the `_load` parsing loop: skip empty and `#`-comment
lines; split the line on `:`; unpacking into `mime, ext` raises `ValueError`
unless exactly two fields result (`Except.error`, carrying the tables as
mutated so far); strip `*` from the glob and update both tables. -/
def loadLine (st : RegState) (ln : String) : Except RegState RegState :=
  if ln = "" ∨ ln.toList.head? = some '#' then .ok st
  else
    match (splitOnChar ':' ln.toList).map List.asString with
    | [mt, extRaw] =>
      let ext := stripCharS '*' extRaw
      .ok ⟨insertExt2Mime st.ext2mime ext mt, insertMime2Ext st.mime2ext mt ext⟩
    | _ => .error st

/-- The `_load` line loop; a `ValueError` aborts the loop, leaving the
class-level tables in their partially mutated state. -/
def loadLines : RegState → List String → Except RegState RegState
  | st, [] => .ok st
  | st, ln :: rest =>
    match loadLine st ln with
    | .ok st2 => loadLines st2 rest
    | .error st2 => .error st2

/-- `PathExt._load`: when the globs source file is absent the tables are left
untouched, otherwise every line is processed. `src = none` models a missing
`/usr/share/mime/globs`; `some lines` its contents split into lines. -/
def load (src : Option (List String)) (st : RegState) : Except RegState RegState :=
  match src with
  | none => .ok st
  | some lines => loadLines st lines

/-- The class-level tables an exception-aware step leaves behind: both a
normal return and an uncaught exception leave the mutations made so far. -/
def exceptState : Except RegState RegState → RegState
  | .ok st => st
  | .error st => st

/-- The registry state after one `_load` call, whether it returned normally or
raised: an uncaught `ValueError` still leaves the partial mutations in place. -/
def loadRun (src : Option (List String)) (st : RegState) : RegState :=
  exceptState (load src st)

/-- The registry state after any finite sequence of `_load` calls (one happens
on every `PathExt` construction). -/
def loadMany (st : RegState) (srcs : List (Option (List String))) : RegState :=
  srcs.foldl (fun s src => loadRun src s) st

/-- `PathExt.extension`: fold over the name's suffixes, appending every suffix
that is, by itself, a key of `_ext2mime_map`. -/
def extension (m : List (String × List String)) (name : String) : String :=
  (suffixesOf name).foldl (fun acc sfx => if containsKey m sfx then acc ++ sfx else acc) ""

/-- The three runtime shapes of the value `PathExt.mime` evaluates to:
`None`, a scalar string, or a list of strings. -/
inductive MimeVal where
  | absent
  | single (s : String)
  | many (l : List String)
deriving DecidableEq, Repr

/-- The body of `PathExt.mime`: `result[0] if len(result or []) == 1 else
result` applied to `_ext2mime_map.get(file_ext)`. -/
def mimeLookup (m : List (String × List String)) (fileExt : String) : MimeVal :=
  match alookup m fileExt with
  | none => .absent
  | some [s] => .single s
  | some l => .many l

/-- `PathExt.mime`: look the resolved extension up in `_ext2mime_map`. -/
def mime (m : List (String × List String)) (name : String) : MimeVal :=
  mimeLookup m (extension m name)

/-- Contiguous-sublist test on char lists (Python substring `in`). -/
def containsSub (hay needle : List Char) : Bool :=
  match hay with
  | [] => needle.isEmpty
  | c :: tl => needle.isPrefixOf (c :: tl) || containsSub tl needle

/-- Python `needle in hay` for strings: substring containment. -/
def containsSubStr (hay needle : String) : Bool := containsSub hay.toList needle.toList

/-- Python `needle in mv` where `mv` is the value of `PathExt.mime`: substring
test on a scalar string, exact-element membership on a list, and a raised
`TypeError` on `None`. -/
def pyInMime (needle : String) : MimeVal → Except Unit Bool
  | .absent => .error ()
  | .single s => .ok (containsSubStr s needle)
  | .many l => .ok (l.contains needle)

/-- `PathExt.is_binary`: readability check short-circuits the external
binary-content sniffer (whose verdict is the second parameter). -/
def is_binary (isReadable sniffsBinary : Bool) : Bool := isReadable && sniffsBinary

/-- `self.extension.strip('.')`. -/
def stripDots (s : String) : String := stripCharS '.' s

/-- `PathExt.is_video`: `self.is_binary and (self.extension.strip('.') in
self.mime or 'video' in self.mime)`, with Python short-circuit order. -/
def is_video (isReadable sniffsBinary : Bool) (m : List (String × List String))
    (name : String) : Except Unit Bool :=
  if is_binary isReadable sniffsBinary then
    match pyInMime (stripDots (extension m name)) (mime m name) with
    | .error e => .error e
    | .ok true => .ok true
    | .ok false => pyInMime "video" (mime m name)
  else .ok false

/-- `PathExt.is_audio`, same shape as `is_video` with literal `'audio'`. -/
def is_audio (isReadable sniffsBinary : Bool) (m : List (String × List String))
    (name : String) : Except Unit Bool :=
  if is_binary isReadable sniffsBinary then
    match pyInMime (stripDots (extension m name)) (mime m name) with
    | .error e => .error e
    | .ok true => .ok true
    | .ok false => pyInMime "audio" (mime m name)
  else .ok false

/-- `PathExt.is_font`, same shape as `is_video` with literal `'font'`. -/
def is_font (isReadable sniffsBinary : Bool) (m : List (String × List String))
    (name : String) : Except Unit Bool :=
  if is_binary isReadable sniffsBinary then
    match pyInMime (stripDots (extension m name)) (mime m name) with
    | .error e => .error e
    | .ok true => .ok true
    | .ok false => pyInMime "font" (mime m name)
  else .ok false

/-- The class-level dict `PathExt._decompress_cmd_map`, transcribed entry for
entry in source order (placeholder braces written as escapes). -/
def _decompress_cmd_map : List (String × String) := [
  (".7z", "7z -mmt2 x \"\x7b\x7d\""),
  (".Z", "uncompress.real \"\x7b\x7d\""),
  (".ace", ""),
  (".ar", ""),
  (".arj", ""),
  (".arz", ""),
  (".bz2", "pbzip2 -d  \"\x7b\x7d\" "),
  (".bz", "pbzip2 -d  \"\x7b\x7d\" "),
  (".bzip2", "pbzip2 -d \"\x7b\x7d\" "),
  (".gz", "unpigz -p4 \"\x7b\x7d\" "),
  (".gzip", "unpigz -p 4 \"\x7b\x7d\" "),
  (".lrz", ""),
  (".lz", ""),
  (".lz4", ""),
  (".lzh", ""),
  (".lzip", ""),
  (".lzma", ""),
  (".lzo", ""),
  (".pea", ""),
  (".rar", "rar x \"\x7b\x7d\""),
  (".tZ", ""),
  (".tar", "tar -xf \"\x7b\x7d\""),
  (".tar.Z", "tar --use-comppress-program=\"uncompress.real\" -xf \"\x7b\x7d\""),
  (".tar.bz", "tar   --use-compress-program=pbzip2 -xf"),
  (".tar.bz2", "tar  --use-compress-program=pbzip2 -xjf \"\x7b\x7d\""),
  (".tar.bzip", ""),
  (".tar.bzip2", "tar -xjf \"\x7b\x7d\""),
  (".tar.gz", "tar -xzf \"\x7b\x7d\""),
  (".tar.lrz", ""),
  (".tar.lz", ""),
  (".tar.lz4", ""),
  (".tar.lzip", "tar --lzip -xf \"\x7b\x7d\""),
  (".tar.lzma", "tar --lzma -xf \"\x7b\x7d\""),
  (".tar.lzo", ""),
  (".tar.xz", "tar --xz -xf \"\x7b\x7d\""),
  (".tar.z", ""),
  (".tar.zst", ""),
  (".tar.zstd", "tar --zstd -xf \"\x7b\x7d\""),
  (".tarbz2", "tar --use-compress-program=\"lbzip2\" -xf \"\x7b\x7d\""),
  (".taz", ""),
  (".tbz", "tar -xjf \"\x7b\x7d\""),
  (".tbz2", "tar -xjf \"\x7b\x7d\""),
  (".tgz", "tar -xzf \"\x7b\x7d\""),
  (".tlrz", ""),
  (".tlz", ""),
  (".txz", ""),
  (".tz", ""),
  (".tzst", ""),
  (".wmz", ""),
  (".xz", "xz --decompress \"\x7b\x7d\""),
  (".zip", "unzip \"\x7b\x7d\""),
  (".zipx", ""),
  (".zz", "")]

/-- `PathExt.is_compressed`: `self.is_binary and self.extension in
self._decompress_cmd_map`. -/
def is_compressed (isReadable sniffsBinary : Bool) (m : List (String × List String))
    (name : String) : Bool :=
  is_binary isReadable sniffsBinary && containsKey _decompress_cmd_map (extension m name)

/-- `PathExt.exts`: the target is always symlink-resolved (the `is_symlink`
guard tests a truthy bound method); `isRegularFile` is the resolved target's
`is_file` property.  When it holds, a name whose suffixes contain `.tar`
yields the joined last two suffixes, any other name its last suffix; when it
fails the property falls through and returns `None`. -/
def exts (isRegularFile : Bool) (name : String) : Option String :=
  if isRegularFile then
    if (suffixesOf name).contains ".tar" then
      some (String.join ((suffixesOf name).drop ((suffixesOf name).length - 2)))
    else some (suffixOf name)
  else none

/-- Opening brace character, kept out of string literals. -/
def lbrace : Char := Char.ofNat 123

/-- Closing brace character, kept out of string literals. -/
def rbrace : Char := Char.ofNat 125

/-- Replace every two-character brace placeholder by `p`, scanning left to
right, as Python `str.format` does for the templates of the table. -/
def substPH (p : List Char) : List Char → List Char
  | [] => []
  | [c] => [c]
  | c1 :: c2 :: rest =>
    if c1 = lbrace ∧ c2 = rbrace then p ++ substPH p rest
    else c1 :: substPH p (c2 :: rest)

/-- Placeholder substitution lifted to strings. -/
def substPlaceholder (tmpl path : String) : String := (substPH path.toList tmpl.toList).asString

/-- Modelled from the spec: the repository stores only the template table
`_decompress_cmd_map`; the `decompression_command` operation described in the
spec (sections 4.2 and 6) is not itself present under `src/`.  Following the
spec's words: look up the command template for the extension; if found and
non-empty, substitute the target path into the template's placeholder and
return the command string; if the extension is unrecognized or its template
is empty, return absence. -/
def decompression_command (ext targetPath : String) : Option String :=
  match alookup _decompress_cmd_map ext with
  | none => none
  | some tmpl => if tmpl = "" then none else some (substPlaceholder tmpl targetPath)

/-- A two-line globs source registering `.gz` and `.tar.gz` (and not `.tar`). -/
def globsGz : List String := ["application/gzip:*.gz", "application/x-compressed-tar:*.tar.gz"]

/-- The extension table loaded from `globsGz`. -/
def regGz : List (String × List String) := (loadRun (some globsGz) initState).ext2mime

/-- A globs source registering `.tar` and `.gz` individually. -/
def globsTarGz : List String := ["application/x-tar:*.tar", "application/gzip:*.gz"]

/-- The extension table loaded from `globsTarGz`. -/
def regTarGz : List (String × List String) := (loadRun (some globsTarGz) initState).ext2mime

/-- A globs source registering two MIME types for `.mp4`. -/
def globsMp4 : List String := ["video/mp4:*.mp4", "application/mp4:*.mp4"]

/-- The extension table loaded from `globsMp4`. -/
def regMp4 : List (String × List String) := (loadRun (some globsMp4) initState).ext2mime

/-- A globs source registering `.jpeg` and `.png` but not `.jpeg.png`. -/
def globsJP : List String := ["image/jpeg:*.jpeg", "image/png:*.png"]

/-- The extension table loaded from `globsJP`. -/
def regJP : List (String × List String) := (loadRun (some globsJP) initState).ext2mime

/-- A one-line globs source used to exercise repeated loads. -/
def srcTxt : List String := ["text/plain:*.txt"]

/-- The resolver as the spec's words describe it, written only for comparison
with `extension`: build every suffix-chain-from-position-i-to-end of the
name's suffix chain and return the longest such chain that is a key of the
extension table, or the empty string when none is. -/
def spec_resolve_extension (m : List (String × List String)) (name : String) : String :=
  let sfx := suffixesOf name
  let chains := (List.range sfx.length).map (fun i => String.join (sfx.drop i))
  match chains.filter (fun c => containsKey m c) with
  | [] => ""
  | c :: _ => c

/-- Every value list of the table is free of duplicates. -/
def TableNodup (m : List (String × List String)) : Prop := ∀ p ∈ m, List.Nodup p.2

/-- Joining a nonempty list of strings prepends its head to the join of its
tail. -/
theorem join_cons (s : String) (l : List String) :
    String.join (s :: l) = s ++ String.join l := by
  apply String.ext
  simp [String.join_eq, String.data_append]

/-- The accumulating fold of `extension` appends exactly the suffixes that
pass the key test, in order. -/
theorem foldl_append_filter (P : String → Bool) :
    ∀ (sfx : List String) (acc : String),
      List.foldl (fun a s => if P s then a ++ s else a) acc sfx
        = acc ++ String.join (sfx.filter P)
  | [], acc => by
    show acc = acc ++ String.join []
    rw [show String.join [] = "" from rfl, String.append_empty]
  | s :: sfx, acc => by
    show List.foldl (fun a s => if P s then a ++ s else a) (if P s then acc ++ s else acc) sfx
        = acc ++ String.join ((s :: sfx).filter P)
    rw [foldl_append_filter P sfx]
    cases hP : P s <;> simp [hP, List.filter_cons, join_cons, String.append_assoc]

/-- `extension` computes the in-order concatenation of the suffixes that are,
each taken alone, keys of the table. -/
theorem extension_eq_join (m : List (String × List String)) (name : String) :
    extension m name = String.join ((suffixesOf name).filter fun s => containsKey m s) := by
  unfold extension
  rw [foldl_append_filter (fun s => containsKey m s), String.empty_append]

/-- One `_ext2mime_map` update keeps every value list duplicate-free. -/
theorem insertExt2Mime_nodup {m : List (String × List String)} {ext mm : String}
    (h : TableNodup m) : TableNodup (insertExt2Mime m ext mm) := by
  unfold insertExt2Mime
  split
  · intro p hp
    rw [List.mem_map] at hp
    obtain ⟨q, hq, rfl⟩ := hp
    split
    · show List.Nodup (if mm ∈ q.2 then q.2 else q.2 ++ [mm])
      split
      · exact h q hq
      · next hnm => exact (h q hq).append (List.nodup_singleton mm) (List.disjoint_singleton.mpr hnm)
    · exact h q hq
  · intro p hp
    rcases List.mem_append.mp hp with hq | hq
    · exact h p hq
    · rw [List.mem_singleton] at hq
      subst hq
      exact List.nodup_singleton mm

/-- A parsing-loop iteration that returns normally keeps the invariant. -/
theorem loadLine_ok_nodup {st st2 : RegState} {ln : String} (e : loadLine st ln = .ok st2)
    (h : TableNodup st.ext2mime) : TableNodup st2.ext2mime := by
  unfold loadLine at e
  split at e
  · injection e with e2
    subst e2
    exact h
  · split at e
    · injection e with e2
      subst e2
      exact insertExt2Mime_nodup h
    · exact Except.noConfusion e

/-- A parsing-loop iteration that raises leaves the tables as they were at
the start of the iteration. -/
theorem loadLine_error_state {st st2 : RegState} {ln : String}
    (e : loadLine st ln = .error st2) : st2 = st := by
  unfold loadLine at e
  split at e
  · exact Except.noConfusion e
  · split at e
    · exact Except.noConfusion e
    · injection e with e2
      exact e2.symm

/-- The whole `_load` line loop keeps the invariant, whether it returns or
raises part-way through. -/
theorem loadLines_nodup : ∀ (lines : List String) (st : RegState),
    TableNodup st.ext2mime → TableNodup (exceptState (loadLines st lines)).ext2mime
  | [], _, h => h
  | ln :: rest, st, h => by
    unfold loadLines
    cases e : loadLine st ln with
    | ok st2 => exact loadLines_nodup rest st2 (loadLine_ok_nodup e h)
    | error st2 =>
      have e2 := loadLine_error_state e
      subst e2
      exact h

/-- One `_load` call keeps the invariant. -/
theorem loadRun_nodup {src : Option (List String)} {st : RegState}
    (h : TableNodup st.ext2mime) : TableNodup (loadRun src st).ext2mime := by
  cases src with
  | none => exact h
  | some lines => exact loadLines_nodup lines st h

/-- Any finite sequence of `_load` calls keeps the invariant. -/
theorem loadMany_nodup : ∀ (srcs : List (Option (List String))) (st : RegState),
    TableNodup st.ext2mime → TableNodup (loadMany st srcs).ext2mime
  | [], _, h => h
  | src :: rest, st, h => loadMany_nodup rest (loadRun src st) (loadRun_nodup h)

/-- C1, counterexample: on the name `data.tar.gz` over a registry whose keys
are exactly `.gz` and `.tar.gz` (loaded from a two-line globs source),
`extension` returns `.gz`, not the longest matching suffix chain `.tar.gz`
that the spec's resolver (`spec_resolve_extension`) would return. -/
theorem extension_not_longest_chain :
    containsKey regGz ".gz" = true ∧ containsKey regGz ".tar.gz" = true ∧
    spec_resolve_extension regGz "data.tar.gz" = ".tar.gz" ∧
    extension regGz "data.tar.gz" = ".gz" ∧
    extension regGz "data.tar.gz" ≠ spec_resolve_extension regGz "data.tar.gz" := by
  decide

/-- C1, amended: the resolved extension is the in-order concatenation of the
suffixes that are individually keys of `_ext2mime_map`; on `data.tar.gz` the
resolver returns `.tar.gz` exactly when `.tar` and `.gz` are both registered
by themselves, and `.gz` when only `.gz` and `.tar.gz` are keys. -/
theorem extension_concat_on_data_tar_gz :
    (∀ (m : List (String × List String)) (name : String),
      extension m name = String.join ((suffixesOf name).filter fun s => containsKey m s)) ∧
    extension regGz "data.tar.gz" = ".gz" ∧
    extension regTarGz "data.tar.gz" = ".tar.gz" :=
  ⟨extension_eq_join, by decide, by decide⟩

/-- C2, code evaluated at the failing input: loading the one-line source
`text/plain:*.txt` twice leaves `_ext2mime_map` unchanged but appends `.txt`
a second time to `_mime2ext_map["text/plain"]`, so the second load changes
the tables — the load step is not idempotent. -/
theorem second_load_duplicates_mime2ext :
    loadRun (some srcTxt) initState
      = ⟨[(".txt", ["text/plain"])], [("text/plain", [".txt"])]⟩ ∧
    loadRun (some srcTxt) (loadRun (some srcTxt) initState)
      = ⟨[(".txt", ["text/plain"])], [("text/plain", [".txt", ".txt"])]⟩ ∧
    loadRun (some srcTxt) (loadRun (some srcTxt) initState) ≠ loadRun (some srcTxt) initState := by
  decide

/-- C3, code evaluated at the failing input: for a readable binary file named
`blob.qqq` whose extension resolves to a key absent from `_ext2mime_map`, the
MIME lookup yields the absence value, and `is_video`, `is_audio` and
`is_font` all raise (`x in None` is a `TypeError`) instead of returning
false. -/
theorem is_video_raises_on_absent_mime :
    mime regGz "blob.qqq" = .absent ∧
    is_video true true regGz "blob.qqq" = .error () ∧
    is_audio true true regGz "blob.qqq" = .error () ∧
    is_font true true regGz "blob.qqq" = .error () :=
  ⟨by decide, rfl, rfl, rfl⟩

/-- C4, counterexample: for a binary `.mp4` file whose extension maps to the
two MIME types `video/mp4` and `application/mp4`, the literal `video` is a
substring of an element of the list, yet `is_video` is false: on a list the
Python `in` of the source is exact element membership, not per-element
substring containment. -/
theorem is_video_list_membership_not_substring :
    mime regMp4 "movie.mp4" = .many ["video/mp4", "application/mp4"] ∧
    containsSubStr "video/mp4" "video" = true ∧
    is_video true true regMp4 "movie.mp4" = .ok false :=
  ⟨by decide, by decide, rfl⟩

/-- C4, amended: when the looked-up MIME value is a list, each classifier is
true iff the underlying file is binary and the list contains — as an exact
element, not a substring match — the stripped resolved extension or the
literal category word. -/
theorem classifier_many_exact_membership (isR isB : Bool)
    (m : List (String × List String)) (name : String) (l : List String)
    (h : mime m name = .many l) :
    is_video isR isB m name =
      .ok ((isR && isB) && (l.contains (stripDots (extension m name)) || l.contains "video")) ∧
    is_audio isR isB m name =
      .ok ((isR && isB) && (l.contains (stripDots (extension m name)) || l.contains "audio")) ∧
    is_font isR isB m name =
      .ok ((isR && isB) && (l.contains (stripDots (extension m name)) || l.contains "font")) := by
  unfold is_video is_audio is_font is_binary
  rw [h]
  refine ⟨?_, ?_, ?_⟩ <;>
    cases isR <;> cases isB <;>
      try rfl
  all_goals
    simp only [pyInMime]
    cases hc : l.contains (stripDots (extension m name)) <;> rfl

/-- Witness for the amended C4 theorem at a concrete input. -/
theorem classifier_many_exact_membership_witness :
    is_video true true regMp4 "movie.mp4" =
      .ok ((true && true) && ((["video/mp4", "application/mp4"].contains
        (stripDots (extension regMp4 "movie.mp4")))
          || ["video/mp4", "application/mp4"].contains "video")) :=
  (classifier_many_exact_membership true true regMp4 "movie.mp4"
    ["video/mp4", "application/mp4"] (by decide)).1

/-- C5, counterexample: for an unreadable path named `a.gz` whose extension
is a key of the decompression table and whose content would sniff as binary,
`is_compressed` evaluates to `false` — the access problem is silently
classified as "not compressed", not surfaced as an error. -/
theorem is_compressed_false_on_unreadable_cex :
    containsKey _decompress_cmd_map ".gz" = true ∧
    extension regGz "a.gz" = ".gz" ∧
    is_compressed false true regGz "a.gz" = false := by
  decide

/-- C5, amended: whenever the path is not readable, `is_binary` is false and
`is_compressed` returns plain `false`, for every registry, name and sniffer
verdict; no access error is raised. -/
theorem unreadable_is_compressed_false (sniff : Bool)
    (m : List (String × List String)) (name : String) :
    is_compressed false sniff m name = false :=
  rfl

/-- Witness for the amended C5 theorem at a concrete input. -/
theorem unreadable_is_compressed_false_witness :
    is_compressed false true regGz "a.gz" = false :=
  unreadable_is_compressed_false true regGz "a.gz"

/-- C6: when the path, after symlink resolution, is not a regular file, the
`exts` resolution returns the absence value whatever dot-suffixes the name
carries. -/
theorem exts_none_of_not_regular_file (name : String) : exts false name = none :=
  rfl

/-- Witness for the C6 theorem at a concrete input. -/
theorem exts_none_of_not_regular_file_witness : exts false "data.tar.gz" = none :=
  exts_none_of_not_regular_file "data.tar.gz"

/-- C7: the MIME lookup returns the absence value when the extension is not
registered, the single MIME type as a scalar when exactly one is registered,
and the ordered list itself when two or more are registered. -/
theorem mime_scalar_list_absent (m : List (String × List String)) (e : String) :
    (alookup m e = none → mimeLookup m e = .absent) ∧
    (∀ s, alookup m e = some [s] → mimeLookup m e = .single s) ∧
    (∀ l, 2 ≤ l.length → alookup m e = some l → mimeLookup m e = .many l) := by
  refine ⟨fun h => ?_, fun s h => ?_, fun l hl h => ?_⟩
  · unfold mimeLookup
    rw [h]
  · unfold mimeLookup
    rw [h]
  · unfold mimeLookup
    rw [h]
    match l, hl with
    | a :: b :: t, _ => rfl

/-- Witness for the C7 theorem at concrete inputs. -/
theorem mime_scalar_list_absent_witness :
    mimeLookup regGz ".gz" = .single "application/gzip" ∧
    mimeLookup regGz ".qqq" = .absent ∧
    mimeLookup regMp4 ".mp4" = .many ["video/mp4", "application/mp4"] :=
  ⟨(mime_scalar_list_absent regGz ".gz").2.1 "application/gzip" (by decide),
   (mime_scalar_list_absent regGz ".qqq").1 (by decide),
   (mime_scalar_list_absent regMp4 ".mp4").2.2 ["video/mp4", "application/mp4"]
     (by decide) (by decide)⟩

/-- C8: `decompression_command ".gz" "/tmp/a.gz"` is the stored template with
the literal path substituted for the placeholder, `decompression_command
".ace" path` is absent because the stored template is empty, and in general a
found non-empty template yields the substituted template while an absent key
or empty template yields absence. -/
theorem decompression_command_spec :
    decompression_command ".gz" "/tmp/a.gz" = some "unpigz -p4 \"/tmp/a.gz\" " ∧
    containsSubStr "unpigz -p4 \"/tmp/a.gz\" " "/tmp/a.gz" = true ∧
    decompression_command ".ace" "/tmp/b.ace" = none ∧
    (∀ ext p t, alookup _decompress_cmd_map ext = some t → t ≠ "" →
      decompression_command ext p = some (substPlaceholder t p)) ∧
    (∀ ext p, alookup _decompress_cmd_map ext = none → decompression_command ext p = none) ∧
    (∀ ext p, alookup _decompress_cmd_map ext = some "" → decompression_command ext p = none) := by
  refine ⟨by decide, by decide, by decide, fun ext p t h hne => ?_, fun ext p h => ?_,
    fun ext p h => ?_⟩
  · unfold decompression_command
    rw [h]
    simp [hne]
  · unfold decompression_command
    rw [h]
  · unfold decompression_command
    rw [h]
    simp

/-- Witness for the C8 theorem at a concrete input. -/
theorem decompression_command_spec_witness :
    decompression_command ".zip" "/x" = some (substPlaceholder "unzip \"\x7b\x7d\"" "/x") :=
  decompression_command_spec.2.2.2.1 ".zip" "/x" "unzip \"\x7b\x7d\"" (by decide) (by decide)

/-- C9: in every registry state reachable from the initial empty tables by
any finite sequence of `_load` calls — each from an arbitrary, possibly
missing, possibly malformed globs source — no key of `_ext2mime_map` maps to
a list containing the same MIME type twice. -/
theorem ext2mime_values_nodup (srcs : List (Option (List String))) :
    TableNodup (loadMany initState srcs).ext2mime :=
  loadMany_nodup srcs initState (by intro p hp; cases hp)

/-- Witness for the C9 theorem at a concrete input. -/
theorem ext2mime_values_nodup_witness :
    TableNodup (loadMany initState [some globsMp4, some globsMp4]).ext2mime :=
  ext2mime_values_nodup [some globsMp4, some globsMp4]

/-- C10: the resolved extension is the in-order concatenation of exactly
those dot-suffixes of the name that are individually keys of
`_ext2mime_map`; consequently for the name `a.jpeg.png`, with `.jpeg` and
`.png` registered but `.jpeg.png` not, the resolved extension is
`.jpeg.png` and its own MIME lookup yields the absence value. -/
theorem extension_is_concat_and_lookup_can_be_absent :
    (∀ (m : List (String × List String)) (name : String),
      extension m name = String.join ((suffixesOf name).filter fun s => containsKey m s)) ∧
    containsKey regJP ".jpeg" = true ∧ containsKey regJP ".png" = true ∧
    containsKey regJP ".jpeg.png" = false ∧
    extension regJP "a.jpeg.png" = ".jpeg.png" ∧
    mime regJP "a.jpeg.png" = .absent :=
  ⟨extension_eq_join, by decide, by decide, by decide, by decide, by decide⟩

/-- Witness for the C10 theorem at a concrete input. -/
theorem extension_is_concat_witness :
    extension regJP "a.jpeg.png" =
      String.join ((suffixesOf "a.jpeg.png").filter fun s => containsKey regJP s) :=
  extension_is_concat_and_lookup_can_be_absent.1 regJP "a.jpeg.png"

end Pathext
